import Mathlib

/-!
Verification of the DOM inspection / selector-generation core of the
dynamic-crawl repository (src/utils/domParser.ts, src/App.tsx,
src/components/VisualViewer.tsx, src/services/geminiService.ts).

HTML strings are modelled by the child-node list that the host DOMParser
produces for the document body; the host parser itself is out of scope
(spec section 4.1 delegates malformed-markup repair to it). All string
primitives used by the code (trim, toLowerCase, substring, split) are
re-implemented over character lists so that every definition evaluates
by kernel reduction.
-/

namespace Crawl

/-- JS String.prototype.trim, over the character list. -/
def jsTrim (s : String) : String :=
  ⟨((s.data.dropWhile Char.isWhitespace).reverse.dropWhile Char.isWhitespace).reverse⟩

/-- JS String.prototype.toLowerCase as applied to ASCII tag names. -/
def jsToLower (s : String) : String := ⟨s.data.map Char.toLower⟩

/-- JS s.substring(0, 30), used for the example-value preview. -/
def jsSubstring30 (s : String) : String := ⟨s.data.take 30⟩

/-- Accumulator pass splitting a character list into maximal
non-whitespace runs (the behaviour of the JS regex split on whitespace
runs, for inputs with no leading or trailing whitespace). -/
def wsTokensAux : List Char → List Char → List String
  | [], cur => if cur.isEmpty then [] else [⟨cur.reverse⟩]
  | c :: rest, cur =>
      if c.isWhitespace then
        if cur.isEmpty then wsTokensAux rest []
        else ⟨cur.reverse⟩ :: wsTokensAux rest []
      else wsTokensAux rest (c :: cur)

/-- JS s.split on a whitespace-run regex: the empty string yields one
empty token, otherwise the maximal non-whitespace runs. The code only
applies this to already-trimmed strings. -/
def jsSplitWs (s : String) : List String :=
  if s = "" then [""] else wsTokensAux s.data []

/-- A node of the DOM produced by the host HTML parser: an element with
tag name (as reported by DOM tagName), attributes and child nodes, or a
text node. -/
inductive DomNode where
  | element (tag : String) (attrs : List (String × String)) (children : List DomNode)
  | text (content : String)

/-- Whether a DOM node is an element: body.children (as opposed to
body.childNodes) keeps exactly these. -/
def isElem : DomNode → Bool
  | .element _ _ _ => true
  | .text _ => false

mutual

/-- Number of non-whitespace-only text nodes strictly inside a DOM node. -/
def domTextCount : DomNode → Nat
  | .element _ _ cs => domTextCountList cs
  | .text _ => 0
termination_by structural d => d

/-- Number of non-whitespace-only text nodes in a DOM node list,
counting the listed text nodes themselves as well as nested ones. -/
def domTextCountList : List DomNode → Nat
  | [] => 0
  | .element t a gs :: rest => domTextCount (.element t a gs) + domTextCountList rest
  | .text c :: rest => (if jsTrim c = "" then 0 else 1) + domTextCountList rest
termination_by structural l => l

end

/-- Top-level tag names of a DOM node list, used only to distinguish
concrete inputs in counterexamples. -/
def domTags (l : List DomNode) : List String :=
  l.map (fun d => match d with | .element t _ _ => t | .text _ => "#text")

/-- The ParsedNode interface of src/types.ts. -/
structure ParsedNode where
  id : String
  tag : String
  attributes : List (String × String) := []
  children : List ParsedNode := []
  textContent : Option String := none
  isSelfClosing : Bool := false

/-- The fixed void-element list of domParser.ts. -/
def voidElements : List String :=
  ["area", "base", "br", "col", "embed", "hr", "img", "input",
   "link", "meta", "param", "source", "track", "wbr"]

mutual

/-- The traverse helper of parseHtmlContent (domParser.ts lines 21-66).
Elements collect their attributes minus the injected data-inspector-id,
lower-case their tag, classify void elements and recurse into
childNodes; the text case is the inline text-run record built by the
child loop (lines 42-49), with the caller supplying the full id. -/
def traverse (domNode : DomNode) (path : String) : ParsedNode :=
  match domNode with
  | .text content =>
      { id := path, tag := "#text", attributes := [], children := [],
        textContent := some content, isSelfClosing := true }
  | .element tag attrs children =>
      { id := path
        tag := jsToLower tag
        attributes := attrs.filter (fun p => p.1 ≠ "data-inspector-id")
        children := traverseChildren children path 0
        textContent := none
        isSelfClosing := voidElements.contains (jsToLower tag) }
termination_by structural domNode

/-- The childNodes.forEach loop of traverse (domParser.ts lines 36-52):
one shared childIndex counter, incremented for element children and for
kept (non-whitespace) text children; whitespace-only text children are
skipped without incrementing it. -/
def traverseChildren (cs : List DomNode) (path : String) (childIndex : Nat) : List ParsedNode :=
  match cs with
  | [] => []
  | .element t a gs :: rest =>
      traverse (.element t a gs) (path ++ "-" ++ toString childIndex) ::
        traverseChildren rest path (childIndex + 1)
  | .text content :: rest =>
      if jsTrim content ≠ "" then
        traverse (.text content) (path ++ "-txt-" ++ toString childIndex) ::
          traverseChildren rest path (childIndex + 1)
      else
        traverseChildren rest path childIndex
termination_by structural cs

end

/-- The top-level loop of parseHtmlContent (domParser.ts lines 69-73):
Array.from(body.children).forEach with its own element-only counter. -/
def topChildren : List DomNode → Nat → List ParsedNode
  | [], _ => []
  | d :: rest, i => traverse d ("root-" ++ toString i) :: topChildren rest (i + 1)

/-- parseHtmlContent (domParser.ts lines 7-80), restricted to the tree
it returns; the serialized injectedHtml is host-serializer output and is
not modelled. The argument is the body childNodes list produced by the
host DOMParser; body.children is its element sublist. -/
def parseHtmlContent (body : List DomNode) : ParsedNode :=
  { id := "root", tag := "div", attributes := [("class", "inspector-root")],
    children := topChildren (body.filter isElem) 0 }

mutual

/-- A node together with all of its descendants, in document order. -/
def allNodes : ParsedNode → List ParsedNode
  | ⟨i, t, a, cs, tc, sc⟩ => ⟨i, t, a, cs, tc, sc⟩ :: allNodesList cs
termination_by structural n => n

/-- All nodes of a forest, in document order. -/
def allNodesList : List ParsedNode → List ParsedNode
  | [] => []
  | c :: rest => allNodes c ++ allNodesList rest
termination_by structural l => l

end

/-- The ids of all nodes of a tree, in document order. -/
def treeIds (n : ParsedNode) : List String := (allNodes n).map (fun m => m.id)

mutual

/-- Whether some node of the tree carries the given id. -/
def occursNode (tid : String) : ParsedNode → Bool
  | ⟨i, _, _, cs, _, _⟩ => tid = i || occursList tid cs
termination_by structural n => n

/-- Whether some node of the forest carries the given id. -/
def occursList (tid : String) : List ParsedNode → Bool
  | [] => false
  | c :: rest => occursNode tid c || occursList tid rest
termination_by structural l => l

end

mutual

/-- The findPath helper of generateCssSelector (domParser.ts lines
86-95): depth-first search returning the root-to-target node chain. -/
def findPath (targetId : String) (node : ParsedNode) (currentPath : List ParsedNode) :
    Option (List ParsedNode) :=
  match node with
  | ⟨i, t, a, cs, tc, sc⟩ =>
      if i = targetId then some (currentPath ++ [⟨i, t, a, cs, tc, sc⟩])
      else findPathList targetId cs (currentPath ++ [⟨i, t, a, cs, tc, sc⟩])
termination_by structural node

/-- The child loop of findPath: first successful child wins. -/
def findPathList (targetId : String) (cs : List ParsedNode) (currentPath : List ParsedNode) :
    Option (List ParsedNode) :=
  match cs with
  | [] => none
  | c :: rest =>
      match findPath targetId c currentPath with
      | some r => some r
      | none => findPathList targetId rest currentPath
termination_by structural cs

end

mutual

/-- The findNode helper of the selectedNode memo in App.tsx (lines
52-63): depth-first search returning the node with the given id. -/
def findNode (targetId : String) : ParsedNode → Option ParsedNode
  | ⟨i, t, a, cs, tc, sc⟩ =>
      if i = targetId then some ⟨i, t, a, cs, tc, sc⟩
      else findNodeList targetId cs
termination_by structural n => n

/-- The child loop of findNode. -/
def findNodeList (targetId : String) : List ParsedNode → Option ParsedNode
  | [] => none
  | c :: rest =>
      match findNode targetId c with
      | some f => some f
      | none => findNodeList targetId rest
termination_by structural l => l

end

mutual

/-- Number of text-run nodes (nodes carrying textContent) in a tree. -/
def textCountNode : ParsedNode → Nat
  | ⟨_, _, _, cs, tc, _⟩ => (if tc.isSome then 1 else 0) + textCountList cs
termination_by structural n => n

/-- Number of text-run nodes in a forest. -/
def textCountList : List ParsedNode → Nat
  | [] => 0
  | c :: rest => textCountNode c + textCountList rest
termination_by structural l => l

end

/-- JS truthiness of a record field access node.attributes[key]: the
value when the attribute is present with a non-empty value. -/
def attrTruthy (attrs : List (String × String)) (key : String) : Option String :=
  match List.lookup key attrs with
  | some v => if v = "" then none else some v
  | none => none

/-- One segment of the selector built by generateCssSelector
(domParser.ts lines 104-126): the body of the path.map callback, with
parent looked up as path[idx]. -/
def segOf (path : List ParsedNode) (idx : Nat) (node : ParsedNode) : String :=
  match attrTruthy node.attributes "id" with
  | some idv => node.tag ++ "#" ++ idv
  | none =>
    match attrTruthy node.attributes "class" with
    | some cls =>
        let classes := jsSplitWs (jsTrim cls)
        match classes with
        | c0 :: _ => if c0 ≠ "" then node.tag ++ "." ++ c0 else node.tag
        | [] => node.tag
    | none =>
        match path[idx]? with
        | some parent =>
            let siblings := parent.children.filter (fun c => c.tag = node.tag)
            if siblings.length > 1 then
              match siblings.findIdx? (fun c => c.id = node.id) with
              | some k => node.tag ++ ":nth-of-type(" ++ toString (k + 1) ++ ")"
              | none => node.tag
            else node.tag
        | none => node.tag

/-- pathNodes.map((node, idx) => ...) of generateCssSelector, rendered
as index-carrying recursion. -/
def mapSegs (path : List ParsedNode) (idx : Nat) : List ParsedNode → List String
  | [] => []
  | n :: rest => segOf path idx n :: mapSegs path (idx + 1) rest

/-- generateCssSelector (domParser.ts lines 85-128). -/
def generateCssSelector (root : ParsedNode) (targetId : String) : String :=
  match findPath targetId root [] with
  | none => ""
  | some path =>
      if path.isEmpty then ""
      else
        let pathNodes := path.drop 1
        if pathNodes.isEmpty then "root"
        else String.intercalate " > " (mapSegs path 0 pathNodes)

/-- The ScrapeTarget interface of src/types.ts. -/
structure ScrapeTarget where
  id : String
  selector : String
  name : String
  description : String
  exampleValue : String

/-- The App.tsx state relevant to URL loading, selection, mode and the
scrape-target queue. rawHtml holds the body childNodes of the loaded
HTML (see module comment); scrapedResult only matters as present or
cleared. -/
structure AppState where
  urlInput : String
  loadedUrl : String
  isLoadingUrl : Bool
  rawHtml : List DomNode
  selectedId : Option String
  hoveredId : Option String
  isInspectMode : Bool
  isResizing : Bool
  scrapeTargets : List ScrapeTarget
  targetName : String
  targetDescription : String
  generatedScript : String
  scrapedResult : Option String

/-- The state updates run when a fetch started by handleUrlSubmit
resolves successfully (App.tsx lines 96-101 plus the finally block):
submittedUrl is the urlInput captured when the fetch was issued. Note
setHoveredId is not among them. -/
def applyFetchSuccess (s : AppState) (submittedUrl : String) (content : List DomNode) :
    AppState :=
  { s with rawHtml := content, loadedUrl := submittedUrl,
           scrapeTargets := [], generatedScript := "", scrapedResult := none,
           selectedId := none, isLoadingUrl := false }

/-- handleUrlSubmit (App.tsx lines 90-107) as a single-load step: the
guard on an empty urlInput, then either the success updates or, on
fetch failure, only the finally block (previous state retained). -/
def handleUrlSubmit (s : AppState) (fetched : Except Unit (List DomNode)) : AppState :=
  if s.urlInput = "" then s
  else
    match fetched with
    | .ok content => applyFetchSuccess s s.urlInput content
    | .error _ => { s with isLoadingUrl := false }

/-- The Interact / Inspect toggle buttons (App.tsx lines 251-274): they
call setIsInspectMode only. -/
def setInspectMode (s : AppState) (mode : Bool) : AppState :=
  { s with isInspectMode := mode }

/-- The overlay rendering guard of VisualViewer.tsx line 159: overlays
mount only when isInspectMode holds, the iframe ref is present and no
resize drag is active. -/
def overlaysRendered (s : AppState) (iframePresent : Bool) : Bool :=
  s.isInspectMode && iframePresent && !s.isResizing

/-- selectedNode?.textContent?.substring(0, 30) || .Element. of
handleAddTarget (App.tsx line 112). -/
def examplePreview (selectedNode : Option ParsedNode) : String :=
  match selectedNode with
  | none => "Element"
  | some n =>
      match n.textContent with
      | none => "Element"
      | some t =>
          let p := jsSubstring30 t
          if p = "" then "Element" else p

/-- handleAddTarget (App.tsx lines 109-126). currentSelector is the
memoized selector computed against the live document by the external
finder library and is passed in as an input. -/
def handleAddTarget (s : AppState) (currentSelector : String) : AppState :=
  match s.selectedId with
  | none => s
  | some sid =>
      if sid = "" ∨ s.targetName = "" then s
      else
        let selectedNode := findNode sid (parseHtmlContent s.rawHtml)
        let preview := examplePreview selectedNode
        { s with
            scrapeTargets := s.scrapeTargets ++
              [{ id := sid, selector := currentSelector, name := s.targetName,
                 description := if s.targetDescription = "" then "Get text content"
                                else s.targetDescription,
                 exampleValue := preview }],
            targetName := "", targetDescription := "" }

/-- One fuel-bounded scan step of the markdown-fence cleanup: each step
consumes at least one character, so fuel = length suffices. -/
def stripFencesGo : Nat → List Char → List Char
  | 0, l => l
  | _, [] => []
  | fuel + 1, c :: rest =>
      if List.isPrefixOf ("```javascript".data) (c :: rest) then
        stripFencesGo fuel (rest.drop 12)
      else if List.isPrefixOf ("```".data) (c :: rest) then
        stripFencesGo fuel (rest.drop 2)
      else
        c :: stripFencesGo fuel rest

/-- text.replace of geminiService.ts line 326: delete every occurrence
of three backticks followed by the word javascript, or of three
backticks, scanning left to right with the longer alternative first. -/
def stripFences (t : String) : String := ⟨stripFencesGo t.data.length t.data⟩

/-- The outcome of consuming the external generateContentStream: the
text fields of the chunks delivered (none when chunk.text is absent),
and whether the call or the iteration then threw. A call that throws
immediately is ([], true). -/
structure AiOutcome where
  chunks : List (Option String)
  threw : Bool

/-- generateScrapingScriptStream (geminiService.ts lines 275-334) as the
list of chunks it yields, in order: the missing-key short-circuit, then
each delivered chunk cleaned of markdown fences and yielded only when
non-empty, then the catch-block fallback chunk when the call threw. The
html and targets arguments only shape the prompt sent to the external
service and do not affect which chunks are yielded. -/
def generateScrapingScriptStream (apiKey : Option String) (html : List DomNode)
    (targets : List ScrapeTarget) (ai : AiOutcome) : List String :=
  match apiKey with
  | none => ["// Error: No API Key"]
  | some _ =>
      let processed :=
        (ai.chunks.map (fun t => stripFences (t.getD ""))).filter (fun t => t ≠ "")
      if ai.threw then
        processed ++ ["// Error generating scraping script. Check API Key."]
      else processed

/-- generateScrapingScript (geminiService.ts lines 265-273): the legacy
non-streaming wrapper accumulating result += chunk over the stream. -/
def generateScrapingScript (apiKey : Option String) (html : List DomNode)
    (targets : List ScrapeTarget) (ai : AiOutcome) : String :=
  (generateScrapingScriptStream apiKey html targets ai).foldl
    (fun result chunk => result ++ chunk) ""

/-!
Claim-side definitions: predicates and alternative selector policies
written from the wording of the specification claims, to be compared
with the source-derived definitions above.
-/

/-- C1 as literally claimed for elements: each element child id is the
parent id, a dash, and the zero-based index among element siblings only
(text runs do not advance the element index). -/
def elemIdsFrom (pid : String) : Nat → List ParsedNode → Bool
  | _, [] => true
  | i, c :: rest =>
      if c.textContent.isSome then elemIdsFrom pid i rest
      else (c.id = pid ++ "-" ++ toString i) && elemIdsFrom pid (i + 1) rest

/-- C1 as claimed for text runs: id is the parent id, -txt-, and the
index in the counter space shared with elements (the position in the
children sequence). -/
def txtIdsFrom (pid : String) : Nat → List ParsedNode → Bool
  | _, [] => true
  | i, c :: rest =>
      (if c.textContent.isSome then (c.id = pid ++ "-txt-" ++ toString i : Bool) else true) &&
        txtIdsFrom pid (i + 1) rest

/-- The id policy of claim C1, checked at one node. -/
def claimChildIds (n : ParsedNode) : Bool :=
  elemIdsFrom n.id 0 n.children && txtIdsFrom n.id 0 n.children

/-- The id policy of claim C1, checked over a whole tree. -/
def claimC1Tree (n : ParsedNode) : Bool := (allNodes n).all claimChildIds

/-- Amended id policy: every child id, element or text run, uses one
shared zero-based counter, which equals the position in the children
sequence (elements get a dash, text runs get -txt-). -/
def childIdsSharedFrom (pid : String) : Nat → List ParsedNode → Bool
  | _, [] => true
  | i, c :: rest =>
      (c.id = pid ++ (if c.textContent.isSome then "-txt-" else "-") ++ toString i) &&
        childIdsSharedFrom pid (i + 1) rest

/-- Amended id policy at one node. -/
def childIdsShared (n : ParsedNode) : Bool := childIdsSharedFrom n.id 0 n.children

/-- Amended id policy over a whole tree. -/
def sharedIdsTree (n : ParsedNode) : Bool := (allNodes n).all childIdsShared

/-- C3 per-node check: every text run (node carrying textContent) is
tagged #text, is marked self-closing, and has non-whitespace content. -/
def textOk (n : ParsedNode) : Bool :=
  match n.textContent with
  | none => true
  | some t => (n.tag = "#text") && n.isSelfClosing && !(jsTrim t = "")

/-- C3 check over a whole tree. -/
def treeTextOk (n : ParsedNode) : Bool := (allNodes n).all textOk

/-- Non-whitespace text nodes of the source that sit inside elements
(text directly under body is not counted, matching the element-only
top-level pass). -/
def domTextCountInElems (body : List DomNode) : Nat :=
  domTextCountList (body.filter isElem)

/-- The first whitespace-separated token of the trimmed class value,
when the trimmed value is non-empty (amended claim C4 wording). -/
def firstClassToken (cls : String) : Option String :=
  match jsSplitWs (jsTrim cls) with
  | t :: _ => if t = "" then none else some t
  | [] => none

/-- Selector segment per the amended claim C4: non-empty id attribute
gives tag#id; else a non-empty class attribute with a first token gives
tag.token (bare tag when the class is whitespace only); else the
nth-of-type rule against same-tag siblings of the given parent. -/
def amendSegment (parent node : ParsedNode) : String :=
  match attrTruthy node.attributes "id" with
  | some idv => node.tag ++ "#" ++ idv
  | none =>
    match attrTruthy node.attributes "class" with
    | some cls =>
        match firstClassToken cls with
        | some t => node.tag ++ "." ++ t
        | none => node.tag
    | none =>
        let siblings := parent.children.filter (fun c => c.tag = node.tag)
        if siblings.length > 1 then
          match siblings.findIdx? (fun c => c.id = node.id) with
          | some k => node.tag ++ ":nth-of-type(" ++ toString (k + 1) ++ ")"
          | none => node.tag
        else node.tag

/-- Segments along the ancestor chain, each node paired with its actual
parent (the previous chain entry). -/
def chainSegs (parent : ParsedNode) : List ParsedNode → List String
  | [] => []
  | n :: rest => amendSegment parent n :: chainSegs n rest

/-- Selector segment as literally claimed in C4: a present id attribute
(empty or not) gives tag#id, else a present class attribute gives
tag.firstToken, else the nth-of-type rule. -/
def claimSegment (parent node : ParsedNode) : String :=
  match List.lookup "id" node.attributes with
  | some v => node.tag ++ "#" ++ v
  | none =>
    match List.lookup "class" node.attributes with
    | some cls =>
        node.tag ++ "." ++ (match jsSplitWs (jsTrim cls) with | t :: _ => t | [] => "")
    | none =>
        let siblings := parent.children.filter (fun c => c.tag = node.tag)
        if siblings.length > 1 then
          match siblings.findIdx? (fun c => c.id = node.id) with
          | some k => node.tag ++ ":nth-of-type(" ++ toString (k + 1) ++ ")"
          | none => node.tag
        else node.tag

/-- Chain segments for the literal claim C4 policy. -/
def claimChainSegs (parent : ParsedNode) : List ParsedNode → List String
  | [] => []
  | n :: rest => claimSegment parent n :: claimChainSegs n rest

/-- The selector that claim C4, read literally, says
generateCssSelector returns for a target below the synthetic root. -/
def claimSelector (root : ParsedNode) (targetId : String) : String :=
  match findPath targetId root [] with
  | some (r :: n :: rest) => String.intercalate " > " (claimChainSegs r (n :: rest))
  | _ => ""

/-- Guard of claim C9: a non-empty selection id and a non-empty field
name. -/
def addTargetGuard (s : AppState) : Bool :=
  match s.selectedId with
  | some sid => (sid ≠ "") && (s.targetName ≠ "")
  | none => false

/-- The entry that amended claim C9 says handleAddTarget appends: the
selection id, the externally computed selector, the field name, the
description defaulting to the fixed instruction when blank, and the
bounded text preview with its fixed fallback. -/
def claimNewTarget (s : AppState) (sel : String) : ScrapeTarget :=
  { id := s.selectedId.getD "", selector := sel, name := s.targetName,
    description := (if s.targetDescription = "" then "Get text content"
                    else s.targetDescription),
    exampleValue := examplePreview
      (findNode (s.selectedId.getD "") (parseHtmlContent s.rawHtml)) }

/-!
Concrete inputs used by counterexamples and witnesses.
-/

/-- Body childNodes for the HTML fragment div(text Hello, p(text World)):
a kept text run precedes an element sibling. -/
def exMix : List DomNode :=
  [.element "DIV" [] [.text "Hello", .element "P" [] [.text "World"]]]

/-- Body childNodes with a non-whitespace text node directly under
body, next to one element. -/
def exTopText : List DomNode :=
  [.text "Hello", .element "DIV" [] []]

/-- Body childNodes for a single div carrying an empty id attribute and
a class attribute. -/
def exEmptyId : List DomNode :=
  [.element "DIV" [("id", ""), ("class", "foo")] []]

/-- Body childNodes for the spec scenario div(p(Hello), p(World)). -/
def exScenario : List DomNode :=
  [.element "DIV" [] [.element "P" [] [.text "Hello"], .element "P" [] [.text "World"]]]

/-- The parsed tree of the scenario input. -/
def scTree : ParsedNode := parseHtmlContent exScenario

/-- First p of the scenario tree, as the parser produces it. -/
def scP1 : ParsedNode :=
  { id := "root-0-0", tag := "p",
    children := [{ id := "root-0-0-txt-0", tag := "#text", children := [],
                   textContent := some "Hello", isSelfClosing := true }] }

/-- Second p of the scenario tree. -/
def scP2 : ParsedNode :=
  { id := "root-0-1", tag := "p",
    children := [{ id := "root-0-1-txt-0", tag := "#text", children := [],
                   textContent := some "World", isSelfClosing := true }] }

/-- The div of the scenario tree. -/
def scDiv : ParsedNode := { id := "root-0", tag := "div", children := [scP1, scP2] }

/-- The synthetic root of the scenario tree, spelled out. -/
def scRootLit : ParsedNode :=
  { id := "root", tag := "div", attributes := [("class", "inspector-root")],
    children := [scDiv] }

/-- A neutral app state to build concrete states from. -/
def baseState : AppState :=
  { urlInput := "", loadedUrl := "", isLoadingUrl := false, rawHtml := [],
    selectedId := none, hoveredId := none, isInspectMode := true, isResizing := false,
    scrapeTargets := [], targetName := "", targetDescription := "",
    generatedScript := "", scrapedResult := none }

/-- State with a live hover and selection, about to load a new URL. -/
def s6 : AppState :=
  { baseState with urlInput := "example.com",
                   rawHtml := [.element "DIV" [] [.element "P" [] []]],
                   selectedId := some "root-0-0", hoveredId := some "root-0-0" }

/-- The body childNodes of the document loaded in the C6 scenario: it
contains no id root-0-0. -/
def content6 : List DomNode := [.element "SPAN" [] []]

/-- Content of the stale fetch for URL A. -/
def contentA : List DomNode := [.element "A" [] []]

/-- Content of the fresh fetch for URL B. -/
def contentB : List DomNode := [.element "B" [] []]

/-- State with a selection and a field name but a blank instruction. -/
def s9 : AppState :=
  { baseState with rawHtml := [.element "DIV" [] [.text "Hello"]],
                   selectedId := some "root-0", targetName := "title",
                   targetDescription := "" }

/-!
Helper lemmas.
-/

/-- The child loop assigns each produced child the id formed from the
parent path, the suffix matching its kind, and the running counter. -/
theorem childIdsSharedFrom_traverseChildren (cs : List DomNode) (path : String) (i : Nat) :
    childIdsSharedFrom path i (traverseChildren cs path i) = true := by
  induction cs generalizing i with
  | nil => simp [traverseChildren, childIdsSharedFrom]
  | cons d rest ih =>
      cases d with
      | element t a gs =>
          simp [traverseChildren, childIdsSharedFrom, traverse, ih]
      | text c =>
          by_cases hw : jsTrim c = ""
          · simp [traverseChildren, hw, ih]
          · simp [traverseChildren, hw, childIdsSharedFrom, traverse, ih]

mutual

/-- Every node of a traversed subtree satisfies the shared-counter id
policy for its own children. -/
theorem traverse_sharedIds (d : DomNode) (path : String) :
    ((allNodes (traverse d path)).all childIdsShared) = true := by
  match d with
  | .text c =>
      simp [traverse, allNodes, allNodesList, childIdsShared, childIdsSharedFrom]
  | .element tag attrs cs =>
      have h1 := childIdsSharedFrom_traverseChildren cs path 0
      have h2 := traverseChildren_sharedIds cs path 0
      simp [traverse, allNodes, childIdsShared, h1, h2]
termination_by structural d

/-- Forest version of traverse_sharedIds. -/
theorem traverseChildren_sharedIds (cs : List DomNode) (path : String) (i : Nat) :
    ((allNodesList (traverseChildren cs path i)).all childIdsShared) = true := by
  match cs with
  | [] => simp [traverseChildren, allNodesList]
  | .element t a gs :: rest =>
      have h1 := traverse_sharedIds (.element t a gs) (path ++ "-" ++ toString i)
      have h2 := traverseChildren_sharedIds rest path (i + 1)
      simp [traverseChildren, allNodesList, h1, h2]
  | .text c :: rest =>
      by_cases hw : jsTrim c = ""
      · have h2 := traverseChildren_sharedIds rest path i
        simp [traverseChildren, hw, h2]
      · have h1 := traverse_sharedIds (.text c) (path ++ "-txt-" ++ toString i)
        have h2 := traverseChildren_sharedIds rest path (i + 1)
        simp [traverseChildren, hw, allNodesList, h1, h2]
termination_by structural cs

end

/-- The top-level element loop assigns ids root-i by position. -/
theorem topChildren_sharedFrom (ds : List DomNode) :
    ∀ i : Nat, ds.all isElem = true →
      childIdsSharedFrom "root" i (topChildren ds i) = true := by
  induction ds with
  | nil => intro i _; simp [topChildren, childIdsSharedFrom]
  | cons d rest ih =>
      intro i h
      simp only [List.all_cons, Bool.and_eq_true] at h
      cases d with
      | text c => simp [isElem] at h
      | element t a gs =>
          have hr : ("root" : String) ++ "-" = "root-" := rfl
          simp [topChildren, childIdsSharedFrom, traverse, hr, ih (i + 1) h.2]

/-- All nodes below the top-level loop satisfy the shared-counter
policy. -/
theorem topChildren_allShared (ds : List DomNode) :
    ∀ i : Nat, (allNodesList (topChildren ds i)).all childIdsShared = true := by
  induction ds with
  | nil => intro i; simp [topChildren, allNodesList]
  | cons d rest ih =>
      intro i
      have h1 := traverse_sharedIds d ("root-" ++ toString i)
      simp [topChildren, allNodesList, h1, ih (i + 1)]

/-- Filtering by isElem yields a list all of whose members satisfy it. -/
theorem all_filter_isElem (l : List DomNode) : (l.filter isElem).all isElem = true := by
  simp only [List.all_eq_true]
  intro a ha
  exact (List.mem_filter.mp ha).2

/-!
Claim theorems.
-/

/-- C1, counterexample: on the fragment div(text Hello, p(World)) the
kept text run advances the counter, so the element p gets id root-0-1
although its zero-based index among element siblings is 0; the id
policy stated by the claim is violated by the parsed tree. -/
theorem c1_counterexample : claimC1Tree (parseHtmlContent exMix) = false := by decide

/-- C1, amended: in every parsed tree, every child id is its parent id
plus a suffix and the zero-based position of the child in the children
sequence, with one counter shared by elements (dash suffix) and kept
text runs (-txt- suffix); an element preceded by kept text runs is
therefore indexed by the shared counter, not by its index among element
siblings alone. -/
theorem c1_id_policy (body : List DomNode) : sharedIdsTree (parseHtmlContent body) = true := by
  have h1 := topChildren_sharedFrom (body.filter isElem) 0 (all_filter_isElem body)
  have h2 := topChildren_allShared (body.filter isElem) 0
  simp [sharedIdsTree, parseHtmlContent, allNodes, childIdsShared, h1, h2]

/-- C2: parsing is a pure function of the body node list, so re-parsing
the identical input yields identical ids at every position of the
tree. -/
theorem c2_determinism (b1 b2 : List DomNode) (h : b1 = b2) :
    treeIds (parseHtmlContent b1) = treeIds (parseHtmlContent b2) := by rw [h]

/-- Witness for c2_determinism at the concrete input exMix. -/
theorem c2_determinism_witness :
    exMix = exMix ∧ treeIds (parseHtmlContent exMix) = treeIds (parseHtmlContent exMix) :=
  ⟨rfl, c2_determinism exMix exMix rfl⟩

mutual

/-- Every text run in a traversed element subtree is tagged #text, is
self-closing, and has non-whitespace content. -/
theorem traverse_textOk (d : DomNode) (path : String) (h : isElem d = true) :
    ((allNodes (traverse d path)).all textOk) = true := by
  match d with
  | .text c => simp [isElem] at h
  | .element tag attrs cs =>
      have h2 := traverseChildren_textOk cs path 0
      simp [traverse, allNodes, textOk, h2]
termination_by structural d

/-- Forest version of traverse_textOk: the child loop only ever emits
text runs guarded by a non-whitespace check. -/
theorem traverseChildren_textOk (cs : List DomNode) (path : String) (i : Nat) :
    ((allNodesList (traverseChildren cs path i)).all textOk) = true := by
  match cs with
  | [] => simp [traverseChildren, allNodesList]
  | .element t a gs :: rest =>
      have h1 := traverse_textOk (.element t a gs) (path ++ "-" ++ toString i) rfl
      have h2 := traverseChildren_textOk rest path (i + 1)
      simp [traverseChildren, allNodesList, h1, h2]
  | .text c :: rest =>
      by_cases hw : jsTrim c = ""
      · have h2 := traverseChildren_textOk rest path i
        simp [traverseChildren, hw, h2]
      · have h2 := traverseChildren_textOk rest path (i + 1)
        simp [traverseChildren, hw, allNodesList, traverse, allNodes, textOk, h2]
termination_by structural cs

end

mutual

/-- The number of text runs contributed by one element subtree equals
the number of non-whitespace text nodes inside the element. -/
theorem traverse_textCount (d : DomNode) (path : String) (h : isElem d = true) :
    textCountNode (traverse d path) = domTextCount d := by
  match d with
  | .text c => simp [isElem] at h
  | .element tag attrs cs =>
      have h2 := traverseChildren_textCount cs path 0
      simp [traverse, textCountNode, domTextCount, h2]
termination_by structural d

/-- Forest version of traverse_textCount. -/
theorem traverseChildren_textCount (cs : List DomNode) (path : String) (i : Nat) :
    textCountList (traverseChildren cs path i) = domTextCountList cs := by
  match cs with
  | [] => simp [traverseChildren, textCountList, domTextCountList]
  | .element t a gs :: rest =>
      have h1 := traverse_textCount (.element t a gs) (path ++ "-" ++ toString i) rfl
      have h2 := traverseChildren_textCount rest path (i + 1)
      simp [traverseChildren, textCountList, domTextCountList, h1, h2]
  | .text c :: rest =>
      by_cases hw : jsTrim c = ""
      · have h2 := traverseChildren_textCount rest path i
        simp [traverseChildren, hw, domTextCountList, h2]
      · have h2 := traverseChildren_textCount rest path (i + 1)
        simp [traverseChildren, hw, textCountList, traverse, textCountNode,
              domTextCountList, h2]
termination_by structural cs

end

/-- Text-run soundness across the top-level element loop. -/
theorem topChildren_textOk (ds : List DomNode) :
    ∀ i : Nat, ds.all isElem = true →
      (allNodesList (topChildren ds i)).all textOk = true := by
  induction ds with
  | nil => intro i _; simp [topChildren, allNodesList]
  | cons d rest ih =>
      intro i h
      simp only [List.all_cons, Bool.and_eq_true] at h
      have h1 := traverse_textOk d ("root-" ++ toString i) h.1
      simp [topChildren, allNodesList, h1, ih (i + 1) h.2]

/-- Text-run count across the top-level element loop. -/
theorem topChildren_textCount (ds : List DomNode) :
    ∀ i : Nat, ds.all isElem = true →
      textCountList (topChildren ds i) = domTextCountList ds := by
  induction ds with
  | nil => intro i _; simp [topChildren, textCountList, domTextCountList]
  | cons d rest ih =>
      intro i h
      simp only [List.all_cons, Bool.and_eq_true] at h
      cases d with
      | text c => simp [isElem] at h
      | element t a gs =>
          have h1 := traverse_textCount (.element t a gs) ("root-" ++ toString i) rfl
          simp [topChildren, textCountList, domTextCountList, h1, ih (i + 1) h.2]

/-- C3, counterexample: for body childNodes (text Hello, div), the
non-whitespace text node Hello sits directly under body, the tree keeps
no text run at all, yet the source contains one non-whitespace text
node; the claimed iff and the claimed count equation both fail. -/
theorem c3_counterexample :
    textCountNode (parseHtmlContent exTopText) = 0 ∧ domTextCountList exTopText = 1 := by
  decide

/-- C3, amended: inside element subtrees a text node is kept iff its
trimmed content is non-empty, every kept text run is tagged #text with
isSelfClosing true and non-whitespace content, and the number of text
runs in the tree equals the number of non-whitespace text nodes of the
source that sit inside elements; text nodes directly under body are
always dropped because the top-level pass iterates body.children. -/
theorem c3_text_runs (body : List DomNode) :
    treeTextOk (parseHtmlContent body) = true ∧
      textCountNode (parseHtmlContent body) = domTextCountInElems body := by
  constructor
  · have h1 := topChildren_textOk (body.filter isElem) 0 (all_filter_isElem body)
    simp [treeTextOk, parseHtmlContent, allNodes, textOk, h1]
  · have h1 := topChildren_textCount (body.filter isElem) 0 (all_filter_isElem body)
    simp [parseHtmlContent, textCountNode, domTextCountInElems, h1]

/-- If dropping n elements exposes head a, then index n holds a. -/
theorem getElem?_of_drop {α : Type} :
    ∀ (l : List α) (n : Nat) (a : α) (t : List α), l.drop n = a :: t → l[n]? = some a := by
  intro l
  induction l with
  | nil => intro n a t h; simp at h
  | cons x xs ih =>
      intro n a t h
      cases n with
      | zero => simp at h ⊢; exact h.1
      | succ m =>
          simp only [List.drop_succ_cons] at h
          simpa using ih m a t h

/-- If dropping n elements exposes a cons, dropping one more exposes
its tail. -/
theorem drop_succ_of_drop {α : Type} :
    ∀ (l : List α) (n : Nat) (a : α) (t : List α), l.drop n = a :: t → l.drop (n + 1) = t := by
  intro l
  induction l with
  | nil => intro n a t h; simp at h
  | cons x xs ih =>
      intro n a t h
      cases n with
      | zero => simp at h ⊢; exact h.2
      | succ m =>
          simp only [List.drop_succ_cons] at h ⊢
          exact ih m a t h

/-- The per-node segment of the source map equals the amended-claim
segment once the parent lookup path[idx] is resolved. -/
theorem segOf_amend (path : List ParsedNode) (idx : Nat) (parent node : ParsedNode)
    (h : path[idx]? = some parent) : segOf path idx node = amendSegment parent node := by
  unfold segOf amendSegment
  cases hid : attrTruthy node.attributes "id" with
  | some v => rfl
  | none =>
      cases hcls : attrTruthy node.attributes "class" with
      | none => simp [h]
      | some cls =>
          unfold firstClassToken
          cases hts : jsSplitWs (jsTrim cls) with
          | nil => simp [hts]
          | cons t ts => by_cases ht : t = "" <;> simp [hts, ht]

/-- The indexed map of the source equals the parent-chain walk of the
amended claim, given that the drop invariant links index and parent. -/
theorem mapSegs_chainSegs :
    ∀ (sub path : List ParsedNode) (idx : Nat) (parent : ParsedNode),
      path.drop idx = parent :: sub → mapSegs path idx sub = chainSegs parent sub := by
  intro sub
  induction sub with
  | nil => intro path idx parent h; rfl
  | cons n rest ih =>
      intro path idx parent h
      have hp : path[idx]? = some parent := getElem?_of_drop path idx parent (n :: rest) h
      have hd : path.drop (idx + 1) = n :: rest := drop_succ_of_drop path idx parent (n :: rest) h
      simp [mapSegs, chainSegs, segOf_amend path idx parent n hp, ih path (idx + 1) n hd]

/-- C4, counterexample: on a div with an empty id attribute and class
foo, the code follows JS truthiness and emits div.foo, while the
claimed policy (any id attribute contributes tag#id) would emit the
segment div#. -/
theorem c4_counterexample :
    generateCssSelector (parseHtmlContent exEmptyId) "root-0" = "div.foo" ∧
      claimSelector (parseHtmlContent exEmptyId) "root-0" = "div#" ∧
      ("div.foo" : String) ≠ "div#" := by decide

/-- C4, amended: for every target found strictly below the synthetic
root, generateCssSelector returns the \" > \"-joined per-node segments
of the ancestor chain, where a node with a non-empty id attribute
contributes tag#id; else a node with a non-empty class attribute
contributes tag.(first whitespace-separated token of the trimmed class)
or the bare tag when the class is whitespace-only; else a node whose
parent has more than one same-tag child contributes
tag:nth-of-type(k), k being one plus the index of the first same-tag
sibling bearing the node's id; else the bare tag. -/
theorem c4_selector_chain (root : ParsedNode) (targetId : String) (r n : ParsedNode)
    (rest : List ParsedNode) (h : findPath targetId root [] = some (r :: n :: rest)) :
    generateCssSelector root targetId = String.intercalate " > " (chainSegs r (n :: rest)) := by
  have hm := mapSegs_chainSegs (n :: rest) (r :: n :: rest) 0 r rfl
  simp [generateCssSelector, h, hm]

/-- Witness for c4_selector_chain: the spec scenario
div(p(Hello), p(World)) with the second p selected yields
div > p:nth-of-type(2). -/
theorem c4_selector_chain_witness :
    findPath "root-0-1" scTree [] = some [scRootLit, scDiv, scP2] ∧
      generateCssSelector scTree "root-0-1" = "div > p:nth-of-type(2)" := by
  refine ⟨rfl, ?_⟩
  have h := c4_selector_chain scTree "root-0-1" scRootLit scDiv [scP2] rfl
  rw [h]
  decide

mutual

/-- When no node of the subtree carries the id, findPath fails. -/
theorem findPath_none (tid : String) (n : ParsedNode) (cur : List ParsedNode)
    (h : occursNode tid n = false) : findPath tid n cur = none := by
  match n with
  | ⟨i, t, a, cs, tc, sc⟩ =>
      simp only [occursNode, Bool.or_eq_false_iff, decide_eq_false_iff_not] at h
      have hl := findPathList_none tid cs (cur ++ [⟨i, t, a, cs, tc, sc⟩]) h.2
      simp only [findPath, hl, ite_eq_right_iff]
      intro he
      exact absurd he.symm h.1
termination_by structural n

/-- Forest version of findPath_none. -/
theorem findPathList_none (tid : String) (cs : List ParsedNode) (cur : List ParsedNode)
    (h : occursList tid cs = false) : findPathList tid cs cur = none := by
  match cs with
  | [] => simp [findPathList]
  | c :: rest =>
      simp only [occursList, Bool.or_eq_false_iff] at h
      have hc := findPath_none tid c cur h.1
      have hr := findPathList_none tid rest cur h.2
      simp [findPathList, hc, hr]
termination_by structural cs

end

/-- C5: when no node of the tree carries the target id, the selector is
the empty string; the function neither fails nor returns a partial
selector. -/
theorem c5_missing_id_empty (root : ParsedNode) (targetId : String)
    (h : occursNode targetId root = false) : generateCssSelector root targetId = "" := by
  simp [generateCssSelector, findPath_none targetId root [] h]

/-- Witness for c5_missing_id_empty on the scenario tree and an id
absent from it. -/
theorem c5_missing_id_empty_witness :
    occursNode "missing" scTree = false ∧ generateCssSelector scTree "missing" = "" :=
  ⟨by decide, c5_missing_id_empty scTree "missing" (by decide)⟩

/-- C6, counterexample: a successful URL load replaces the tree and
clears selectedId, but hoveredId is left untouched and afterwards
references an id that does not exist in the new tree. -/
theorem c6_counterexample :
    (handleUrlSubmit s6 (.ok content6)).hoveredId = some "root-0-0" ∧
      occursNode "root-0-0" (parseHtmlContent (handleUrlSubmit s6 (.ok content6)).rawHtml)
        = false := by decide

/-- C6, amended: on a successful URL load with a non-empty url input,
selectedId is cleared but hoveredId is left unchanged, so only
selectedId is guaranteed to reference the new tree; a stale hoveredId
can survive the rebuild. -/
theorem c6_rebuild_clears (s : AppState) (content : List DomNode) (h : s.urlInput ≠ "") :
    (handleUrlSubmit s (.ok content)).selectedId = none ∧
      (handleUrlSubmit s (.ok content)).hoveredId = s.hoveredId := by
  simp [handleUrlSubmit, h, applyFetchSuccess]

/-- Witness for c6_rebuild_clears at the concrete C6 state. -/
theorem c6_rebuild_clears_witness :
    s6.urlInput ≠ "" ∧
      ((handleUrlSubmit s6 (.ok content6)).selectedId = none ∧
        (handleUrlSubmit s6 (.ok content6)).hoveredId = s6.hoveredId) :=
  ⟨by decide, c6_rebuild_clears s6 content6 (by decide)⟩

/-- C7: handleUrlSubmit has no staleness guard, so when the fetch for
URL A resolves after the fetch for URL B has already been applied, the
stale completion overwrites the fresher content: the final state holds
contentA and loadedUrl a.com even though B completed later than A
started and earlier than A completed. -/
theorem c7_stale_fetch_applied :
    (applyFetchSuccess (applyFetchSuccess baseState "b.com" contentB) "a.com" contentA).rawHtml
        = contentA ∧
      (applyFetchSuccess (applyFetchSuccess baseState "b.com" contentB) "a.com"
          contentA).loadedUrl = "a.com" ∧
      domTags contentA ≠ domTags contentB :=
  ⟨rfl, rfl, by decide⟩

/-- C8: switching the operating mode changes neither selectedId nor
hoveredId, overlays never render in Interact mode, and in Inspect mode
they render exactly when the iframe is present and no resize drag is
active. -/
theorem c8_mode_switch (s : AppState) (mode : Bool) (iframePresent : Bool) :
    (setInspectMode s mode).selectedId = s.selectedId ∧
      (setInspectMode s mode).hoveredId = s.hoveredId ∧
      overlaysRendered (setInspectMode s false) iframePresent = false ∧
      overlaysRendered (setInspectMode s true) iframePresent
        = (iframePresent && !s.isResizing) := by
  refine ⟨rfl, rfl, ?_, ?_⟩ <;> simp [setInspectMode, overlaysRendered]

/-- C9, counterexample: with a selection, a field name and a blank
instruction, the appended entry's description is the string
Get text content with a capital G, not the claimed string
get text content. -/
theorem c9_counterexample :
    ((handleAddTarget s9 "div").scrapeTargets.map (fun t => t.description)
        = ["Get text content"]) ∧
      ¬(("Get text content" : String) = "get text content") := by decide

/-- C9, amended: handleAddTarget changes nothing unless the selection
id and the field name are both non-empty; when they are, exactly one
entry is appended at the end, with the user's text as description or
the fixed instruction Get text content when blank, and with
exampleValue the first 30 characters of the selected node's
textContent, or the fixed label Element when the node has no non-empty
text; the name and description inputs are then reset. -/
theorem c9_add_target (s : AppState) (sel : String) :
    handleAddTarget s sel =
      (if addTargetGuard s then
        { s with scrapeTargets := s.scrapeTargets ++ [claimNewTarget s sel],
                 targetName := "", targetDescription := "" }
      else s) := by
  rcases hsel : s.selectedId with _ | sid
  · simp [handleAddTarget, addTargetGuard, hsel]
  · by_cases h1 : sid = "" <;> by_cases h2 : s.targetName = "" <;>
      simp [handleAddTarget, addTargetGuard, claimNewTarget, examplePreview, hsel, h1, h2]

/-- Concatenating a list of strings adds up their lengths. -/
theorem foldl_append_length (l : List String) :
    ∀ acc : String,
      (l.foldl (fun r c => r ++ c) acc).length = acc.length + (l.map String.length).sum := by
  induction l with
  | nil => intro acc; simp
  | cons x xs ih =>
      intro acc
      simp only [List.foldl_cons, List.map_cons, List.sum_cons]
      rw [ih]
      simp [String.length_append]
      omega

/-- C10: the non-streaming generateScrapingScript returns exactly the
in-order concatenation of the chunks yielded by
generateScrapingScriptStream on the same inputs, with no separators
inserted and no characters dropped (its length is the sum of the chunk
lengths). -/
theorem c10_stream_concat (apiKey : Option String) (html : List DomNode)
    (targets : List ScrapeTarget) (ai : AiOutcome) :
    generateScrapingScript apiKey html targets ai
        = String.join (generateScrapingScriptStream apiKey html targets ai) ∧
      (generateScrapingScript apiKey html targets ai).length
        = ((generateScrapingScriptStream apiKey html targets ai).map String.length).sum := by
  constructor
  · rfl
  · have h := foldl_append_length (generateScrapingScriptStream apiKey html targets ai) ""
    simpa [generateScrapingScript] using h

end Crawl
